import Mathlib

/-!
Shallow embedding of `internal/datastore/postgres/query.go`: the
revision-scoped tuple query builder (`QueryTuples`, `pgTupleQuery`),
the executor (`Execute`), and the materialized result iterator
(`pgTupleIterator` with `Next`, `Err`, `Close`), together with proofs
of the specification's claims about them.

Go value-receiver methods become Lean functions returning an updated
copy; pointer-receiver methods (the iterator) become explicit state
passing; panics and nil dereferences become `Option`/`Except` failures.
The storage engine (`sqlx`), the SQL compiler (`squirrel`) and the
protobuf message types are external collaborators and are modelled at
the boundary the code uses them through.
-/

set_option autoImplicit false

namespace PGQuery

/-- Models `pb.ObjectAndRelation` (external protobuf message): an
object id within a namespace, together with a relation name. -/
structure ObjectAndRelation where
  Namespace : String
  ObjectId : String
  Relation : String
  deriving DecidableEq, Repr

/-- Models `pb.RelationTuple`: the resource (`ObjectAndRelation`) and the
subject. The Go message wraps the subject in a `User` oneof whose only
variant used by this file is `Userset`; the embedding keeps the userset
directly. -/
structure RelationTuple where
  objectAndRelation : ObjectAndRelation
  userset : ObjectAndRelation
  deriving DecidableEq, Repr

/-- The table columns referenced by this file (`colNamespace`, ...,
`colCreatedTxn`, `colDeletedTxn`; the constants themselves are declared
elsewhere in the package, only their identity matters here). -/
inductive Col where
  | colNamespace
  | colObjectID
  | colRelation
  | colUsersetNamespace
  | colUsersetObjectID
  | colUsersetRelation
  | colCreatedTxn
  | colDeletedTxn
  deriving DecidableEq, Repr

/-- A column value: the six tuple columns are strings, the two
transaction-revision columns are unsigned integers. -/
inductive Val where
  | str (s : String)
  | nat (n : Nat)
  deriving DecidableEq, Repr

/-- A stored row of the tuple table: the six tuple columns plus the two
MVCC revision columns (`created_transaction`, `deleted_transaction`). -/
structure StoredRow where
  Namespace : String
  ObjectID : String
  Relation : String
  UsersetNamespace : String
  UsersetObjectID : String
  UsersetRelation : String
  CreatedTxn : Nat
  DeletedTxn : Nat
  deriving DecidableEq, Repr

/-- Reading a column of a stored row. -/
def colValue : Col → StoredRow → Val
  | .colNamespace, r => .str r.Namespace
  | .colObjectID, r => .str r.ObjectID
  | .colRelation, r => .str r.Relation
  | .colUsersetNamespace, r => .str r.UsersetNamespace
  | .colUsersetObjectID, r => .str r.UsersetObjectID
  | .colUsersetRelation, r => .str r.UsersetRelation
  | .colCreatedTxn, r => .nat r.CreatedTxn
  | .colDeletedTxn, r => .nat r.DeletedTxn

/-- A WHERE predicate as built by this file through the `squirrel`
builder: `sq.Eq` (one column), `sq.LtOrEq`, `sq.Gt`, `sq.Or` of two
disjuncts, and the conjunction produced by a multi-key `sq.Eq`. -/
inductive SqlPred where
  | eq (c : Col) (v : Val)
  | ltOrEq (c : Col) (n : Nat)
  | gt (c : Col) (n : Nat)
  | orP (p q : SqlPred)
  | andP (p q : SqlPred)
  deriving DecidableEq, Repr

/-- Row-level semantics of a compiled WHERE predicate: what the storage
engine's filter accepts. Comparison predicates on a string-typed column
are never generated by this file; they evaluate to false. -/
def evalPred : SqlPred → StoredRow → Bool
  | .eq c v, r => decide (colValue c r = v)
  | .ltOrEq c n, r =>
    match colValue c r with
    | .nat m => decide (m ≤ n)
    | .str _ => false
  | .gt c n, r =>
    match colValue c r with
    | .nat m => decide (n < m)
    | .str _ => false
  | .orP p q, r => evalPred p r || evalPred q r
  | .andP p q, r => evalPred p r && evalPred q r

/-- Models `sq.SelectBuilder` as used here: the accumulated list of
WHERE conjuncts (the SELECT columns and FROM table are fixed by
`queryTuples` and carry no row-filtering content). -/
structure SelectBuilder where
  wheres : List SqlPred
  deriving DecidableEq, Repr

/-- `builder.Where(pred)`: appends one more conjunct, returning a new
builder value (squirrel builders are immutable values). -/
def SelectBuilder.Where (b : SelectBuilder) (p : SqlPred) : SelectBuilder :=
  { wheres := b.wheres ++ [p] }

/-- The WHERE clause compiled from the builder accepts a stored row iff
every accumulated conjunct holds on it. -/
def SelectBuilder.accepts (b : SelectBuilder) (r : StoredRow) : Bool :=
  b.wheres.all fun p => evalPred p r

/-- The package-level base query `queryTuples`: SELECT of the six tuple
columns FROM the tuple table, with no WHERE clause yet. -/
def queryTuples : SelectBuilder := { wheres := [] }

/-- Modelled from the spec: `liveDeletedTxnID`, the reserved
`deleted_transaction` sentinel meaning "never deleted", is declared
elsewhere in the package; per the spec it is a reserved value excluded
from being a legitimate real revision (the maximum representable
revision value). -/
def liveDeletedTxnID : Nat := 9223372036854775807

/-- Models `pgTupleQuery` (the query specification). The `db` handle it
carries is the external connection pool; its behaviour enters through
`ExecEnv` at `Execute` time. The Go field `namespace` is a Lean keyword
and is embedded as `nspace`. -/
structure pgTupleQuery where
  query : SelectBuilder
  nspace : String
  relation : String := ""
  deriving DecidableEq, Repr

/-- `(pgd *pgDatastore) QueryTuples(namespace, revision)`: the root
constructor. Conjoins the namespace equality with the two visibility
conjuncts `createdTxn <= revision` and
`(deletedTxn = liveDeletedTxnID OR deletedTxn > revision)`. -/
def QueryTuples (ns : String) (revision : Nat) : pgTupleQuery :=
  { query :=
      ((queryTuples.Where (.eq .colNamespace (.str ns))).Where
        (.ltOrEq .colCreatedTxn revision)).Where
        (.orP (.eq .colDeletedTxn (.nat liveDeletedTxnID))
          (.gt .colDeletedTxn revision)),
    nspace := ns }

/-- `WithObjectID`: value receiver, returns a copy with one more
equality conjunct. -/
def pgTupleQuery.WithObjectID (ptq : pgTupleQuery) (objectID : String) : pgTupleQuery :=
  { ptq with query := ptq.query.Where (.eq .colObjectID (.str objectID)) }

/-- `WithRelation`: value receiver, returns a copy with one more
equality conjunct and the `relation` field set. -/
def pgTupleQuery.WithRelation (ptq : pgTupleQuery) (relation : String) : pgTupleQuery :=
  { ptq with
    query := ptq.query.Where (.eq .colRelation (.str relation)),
    relation := relation }

/-- `WithUserset(userset *pb.ObjectAndRelation)`: the Go body reads
`userset.Namespace`, `userset.ObjectId`, `userset.Relation`; a nil
pointer argument therefore panics before any accumulation, embedded as
`none`. A present userset adds one multi-key `sq.Eq` conjunct (the
conjunction of the three field equalities). -/
def pgTupleQuery.WithUserset (ptq : pgTupleQuery) (userset : Option ObjectAndRelation) :
    Option pgTupleQuery :=
  match userset with
  | none => none
  | some u =>
    some { ptq with
      query := ptq.query.Where
        (.andP (.eq .colUsersetNamespace (.str u.Namespace))
          (.andP (.eq .colUsersetObjectID (.str u.ObjectId))
            (.eq .colUsersetRelation (.str u.Relation)))) }

/-- `errUnableToQueryTuples` applied by `fmt.Errorf` with `%w`: the one
error kind every `Execute` failure is wrapped in. -/
def wrapErr (cause : String) : String :=
  "unable to query tuples: " ++ cause

/-- `errClosedIterator`. -/
def errClosedIterator : String := "unable to iterate: iterator closed"

/-- A raw row as yielded by the external cursor: a list of string
columns. A well-formed row has exactly the six selected columns. -/
abbrev RawRow := List String

/-- `rows.Scan(&...)` into the six destination fields of a fresh
`pb.RelationTuple`: fails (as the external `sqlx` scan does) unless the
raw row has exactly the six expected columns. -/
def scanRow : RawRow → Except String RelationTuple
  | [ns, oid, rel, uns, uoid, urel] =>
    .ok { objectAndRelation := { Namespace := ns, ObjectId := oid, Relation := rel },
          userset := { Namespace := uns, ObjectId := uoid, Relation := urel } }
  | _ => .error "sql: scan destination count does not match column count"

/-- The materialization loop of `Execute`: scans each raw row in cursor
order, appending to `tuples`; the first scan failure returns
immediately, discarding everything scanned so far. -/
def scanAll : List RawRow → Except String (List RelationTuple)
  | [] => .ok []
  | raw :: rest =>
    match scanRow raw with
    | .error e => .error e
    | .ok t =>
      match scanAll rest with
      | .error e => .error e
      | .ok ts => .ok (t :: ts)

/-- What the cursor of one query run delivers: the raw rows, plus the
deferred cursor error reported by `rows.Err()` after the last row. -/
structure RowsResult where
  raws : List RawRow
  finalErr : Option String
  deriving DecidableEq, Repr

instance {ε α : Type} [DecidableEq ε] [DecidableEq α] : DecidableEq (Except ε α) := fun a b =>
  match a, b with
  | .error x, .error y =>
    if h : x = y then isTrue (by rw [h]) else isFalse (by simp [h])
  | .error _, .ok _ => isFalse (by simp)
  | .ok _, .error _ => isFalse (by simp)
  | .ok x, .ok y =>
    if h : x = y then isTrue (by rw [h]) else isFalse (by simp [h])

/-- The external storage-engine behaviour for one `Execute` call.
`dbQuery q` is what `ptq.db.Queryx(sql, args...)` — the compiled query
`q` run directly on the connection pool, seeing the current database
state — returns; `txQuery q` is what the same compiled query would
return if run inside the transaction opened by `ptq.db.Beginx()`, i.e.
against that transaction's read snapshot. The two differ exactly when a
concurrent writer commits between `Beginx` and `Queryx`. -/
structure ExecEnv where
  beginxErr : Option String
  toSqlErr : Option String
  dbQuery : SelectBuilder → Except String RowsResult
  txQuery : SelectBuilder → Except String RowsResult

/-- Which connection a query was issued on. -/
inductive Conn where
  | db
  | tx
  deriving DecidableEq, Repr

/-- Models `pgTupleIterator`: the materialized tuples, the lifecycle
flag, and the error slot. -/
structure pgTupleIterator where
  tuples : List RelationTuple
  closed : Bool
  err : Option String
  deriving DecidableEq, Repr

/-- The observable outcome of one `Execute` call: the returned iterator
or error, whether the opened transaction was rolled back (the `defer
tx.Rollback()` fires on every return path after a successful `Beginx`),
and which connection, if any, the query was issued on. -/
structure ExecResult where
  result : Except String pgTupleIterator
  rolledBack : Bool
  queriedOn : Option Conn
  deriving DecidableEq, Repr

/-- `(ptq pgTupleQuery) Execute()`. Faithful to the source order:
`Beginx` (failure wrapped), `defer tx.Rollback()`, `ToSql` (failure
wrapped), then `ptq.db.Queryx(sql, args...)` — issued on the pool
connection `ptq.db`, not on `tx` — then the scan loop (first failure
aborts the call, wrapped), then `rows.Err()` (wrapped), and finally the
iterator, open with an empty error slot. The dead `if err != nil`
recheck after the defer re-tests an error already known nil and has no
effect. -/
def pgTupleQuery.Execute (ptq : pgTupleQuery) (env : ExecEnv) : ExecResult :=
  match env.beginxErr with
  | some e => { result := .error (wrapErr e), rolledBack := false, queriedOn := none }
  | none =>
    match env.toSqlErr with
    | some e => { result := .error (wrapErr e), rolledBack := true, queriedOn := none }
    | none =>
      match env.dbQuery ptq.query with
      | .error e => { result := .error (wrapErr e), rolledBack := true, queriedOn := some .db }
      | .ok qr =>
        match scanAll qr.raws with
        | .error e =>
          { result := .error (wrapErr e), rolledBack := true, queriedOn := some .db }
        | .ok tuples =>
          match qr.finalErr with
          | some e =>
            { result := .error (wrapErr e), rolledBack := true, queriedOn := some .db }
          | none =>
            { result := .ok { tuples := tuples, closed := false, err := none },
              rolledBack := true, queriedOn := some .db }

/-- The leak-check closure `Execute` registers with
`runtime.SetFinalizer`: runs when the iterator becomes unreachable, and
panics (embedded as `.error` carrying the panic message, which names
the offending query) iff the iterator was never closed. -/
def finalizerCheck (sqlStr argsStr : String) (iter : pgTupleIterator) : Except String Unit :=
  if !iter.closed then
    .error ("Tuple iterator garbage collected before Close() was called\n sql: "
      ++ sqlStr ++ "\n args: " ++ argsStr ++ "\n")
  else
    .ok ()

/-- `(pti *pgTupleIterator) Next()`: pointer receiver, embedded as a
state transformer returning the yielded tuple (or `none`) and the
updated iterator. -/
def pgTupleIterator.Next (pti : pgTupleIterator) : Option RelationTuple × pgTupleIterator :=
  if pti.closed then
    (none, { pti with err := some errClosedIterator })
  else
    match pti.tuples with
    | first :: rest => (some first, { pti with tuples := rest })
    | [] => (none, pti)

/-- `(pti *pgTupleIterator) Err()`. -/
def pgTupleIterator.Err (pti : pgTupleIterator) : Option String :=
  pti.err

/-- `(pti *pgTupleIterator) Close()`: panics (embedded as `none`) on a
double close; otherwise releases the buffer and marks the iterator
closed. -/
def pgTupleIterator.Close (pti : pgTupleIterator) : Option pgTupleIterator :=
  if pti.closed then
    none
  else
    some { pti with tuples := [], closed := true }

/-- The refinement closure of a base specification: every
`pgTupleQuery` value obtainable from `base` by a chain of
`WithObjectID`, `WithRelation` and (successful) `WithUserset` calls. -/
inductive Refines (base : pgTupleQuery) : pgTupleQuery → Prop
  | refl : Refines base base
  | withObjectID (q : pgTupleQuery) (oid : String) :
      Refines base q → Refines base (q.WithObjectID oid)
  | withRelation (q : pgTupleQuery) (rel : String) :
      Refines base q → Refines base (q.WithRelation rel)
  | withUserset (q q' : pgTupleQuery) (u : Option ObjectAndRelation) :
      Refines base q → q.WithUserset u = some q' → Refines base q'

/-- The iterator `Execute` hands back on success: populated, open,
empty error slot. -/
def freshIter (ts : List RelationTuple) : pgTupleIterator :=
  { tuples := ts, closed := false, err := none }

/-- `n` consecutive `Next()` calls: the values yielded, in call order,
and the final iterator state. -/
def nextN : pgTupleIterator → Nat → List (Option RelationTuple) × pgTupleIterator
  | it, 0 => ([], it)
  | it, n + 1 =>
    let step := it.Next
    let rest := nextN step.2 n
    (step.1 :: rest.1, rest.2)

/-- One consumer operation on an iterator. -/
inductive Op where
  | next
  | close
  | errq
  deriving DecidableEq, Repr

/-- Applying one operation: `Next` and `Err` always succeed (`Err` does
not change state); `Close` dies (panics) on a closed iterator. -/
def applyOp (it : pgTupleIterator) : Op → Option pgTupleIterator
  | .next => some it.Next.2
  | .close => it.Close
  | .errq => some it

/-- Running a sequence of operations; `none` if some operation died. -/
def runOps : pgTupleIterator → List Op → Option pgTupleIterator
  | it, [] => some it
  | it, op :: rest =>
    match applyOp it op with
    | none => none
    | some it1 => runOps it1 rest

/-- Whether the operation sequence ever calls `Next` while the iterator
is closed (the one action that writes the error slot). -/
def nextWhileClosed : pgTupleIterator → List Op → Bool
  | _, [] => false
  | it, op :: rest =>
    (op == .next && it.closed) ||
      (match applyOp it op with
       | none => false
       | some it1 => nextWhileClosed it1 rest)

/-! Helper lemmas -/

theorem Refines.wheres_mem {base q : pgTupleQuery} (h : Refines base q) :
    ∀ p ∈ base.query.wheres, p ∈ q.query.wheres := by
  induction h with
  | refl => intro p hp; exact hp
  | withObjectID q oid _ ih =>
    intro p hp
    simp [pgTupleQuery.WithObjectID, SelectBuilder.Where]
    exact Or.inl (ih p hp)
  | withRelation q rel _ ih =>
    intro p hp
    simp [pgTupleQuery.WithRelation, SelectBuilder.Where]
    exact Or.inl (ih p hp)
  | withUserset q q' u _ hu ih =>
    intro p hp
    cases u with
    | none => simp [pgTupleQuery.WithUserset] at hu
    | some x =>
      simp only [pgTupleQuery.WithUserset, Option.some.injEq] at hu
      subst hu
      simp [SelectBuilder.Where]
      exact Or.inl (ih p hp)

theorem accepts_eval {b : SelectBuilder} {r : StoredRow} (h : b.accepts r = true) :
    ∀ p ∈ b.wheres, evalPred p r = true := by
  simpa [SelectBuilder.accepts, List.all_eq_true] using h

theorem Execute_result_spec (ptq : pgTupleQuery) (env : ExecEnv) :
    (ptq.Execute env).result =
      (match env.beginxErr with
      | some e => .error (wrapErr e)
      | none =>
        match env.toSqlErr with
        | some e => .error (wrapErr e)
        | none =>
          match env.dbQuery ptq.query with
          | .error e => .error (wrapErr e)
          | .ok qr =>
            match scanAll qr.raws with
            | .error e => .error (wrapErr e)
            | .ok ts =>
              match qr.finalErr with
              | some e => .error (wrapErr e)
              | none => .ok (freshIter ts)) := by
  cases hb : env.beginxErr with
  | some e => simp [pgTupleQuery.Execute, hb]
  | none =>
    cases ht : env.toSqlErr with
    | some e => simp [pgTupleQuery.Execute, hb, ht]
    | none =>
      cases hq : env.dbQuery ptq.query with
      | error e => simp [pgTupleQuery.Execute, hb, ht, hq]
      | ok qr =>
        cases hs : scanAll qr.raws with
        | error e => simp [pgTupleQuery.Execute, hb, ht, hq, hs]
        | ok ts =>
          cases hf : qr.finalErr <;>
            simp [pgTupleQuery.Execute, freshIter, hb, ht, hq, hs, hf]

/-! Claims -/

/-- C1: every query refined from `QueryTuples ns R` still carries the
two visibility conjuncts added at construction, and its compiled filter
accepts a stored row only if `CreatedTxn ≤ R` and (`DeletedTxn` is the
live sentinel or `DeletedTxn > R`). -/
theorem c1_visibility_always_conjoined (ns : String) (R : Nat) (q : pgTupleQuery)
    (hq : Refines (QueryTuples ns R) q) :
    (SqlPred.ltOrEq .colCreatedTxn R) ∈ q.query.wheres ∧
    (SqlPred.orP (.eq .colDeletedTxn (.nat liveDeletedTxnID)) (.gt .colDeletedTxn R))
      ∈ q.query.wheres ∧
    ∀ row : StoredRow, q.query.accepts row = true →
      row.CreatedTxn ≤ R ∧ (row.DeletedTxn = liveDeletedTxnID ∨ R < row.DeletedTxn) := by
  have hmem := hq.wheres_mem
  have h1 : (SqlPred.ltOrEq .colCreatedTxn R) ∈ q.query.wheres := by
    apply hmem
    simp [QueryTuples, queryTuples, SelectBuilder.Where]
  have h2 : (SqlPred.orP (.eq .colDeletedTxn (.nat liveDeletedTxnID))
      (.gt .colDeletedTxn R)) ∈ q.query.wheres := by
    apply hmem
    simp [QueryTuples, queryTuples, SelectBuilder.Where]
  refine ⟨h1, h2, fun row hacc => ?_⟩
  have hall := accepts_eval hacc
  have e1 := hall _ h1
  have e2 := hall _ h2
  constructor
  · simpa [evalPred, colValue] using e1
  · simpa [evalPred, colValue, Val.nat.injEq] using e2

theorem c1_visibility_always_conjoined_witness :
    (3 : Nat) ≤ 5 ∧ ((9223372036854775807 : Nat) = liveDeletedTxnID ∨ 5 < 9223372036854775807) :=
  (c1_visibility_always_conjoined "document" 5
    ((QueryTuples "document" 5).WithRelation "viewer")
    (Refines.withRelation _ "viewer" Refines.refl)).2.2
    { Namespace := "document", ObjectID := "firstdoc", Relation := "viewer",
      UsersetNamespace := "user", UsersetObjectID := "alice", UsersetRelation := "",
      CreatedTxn := 3, DeletedTxn := 9223372036854775807 }
    (by decide)

/-- C2 (code bug): with a successfully opened transaction, `Execute`
issues the query on the pool connection (`queriedOn = some .db`), not
inside the transaction; here the transaction's read snapshot is empty
while a concurrent commit made one row visible to the pool connection,
and the call returns that row — the delivered rows do not come from the
transaction's consistent read, even though the transaction is opened
and rolled back. -/
theorem c2_execute_bypasses_transaction :
    ((QueryTuples "document" 5).Execute
      ⟨none, none,
        fun _ => .ok ⟨[["document", "firstdoc", "viewer", "user", "alice", ""]], none⟩,
        fun _ => .ok ⟨[], none⟩⟩).rolledBack = true ∧
    ((QueryTuples "document" 5).Execute
      ⟨none, none,
        fun _ => .ok ⟨[["document", "firstdoc", "viewer", "user", "alice", ""]], none⟩,
        fun _ => .ok ⟨[], none⟩⟩).queriedOn = some Conn.db ∧
    ((QueryTuples "document" 5).Execute
      ⟨none, none,
        fun _ => .ok ⟨[["document", "firstdoc", "viewer", "user", "alice", ""]], none⟩,
        fun _ => .ok ⟨[], none⟩⟩).result = .ok (freshIter
      [{ objectAndRelation := { Namespace := "document", ObjectId := "firstdoc", Relation := "viewer" },
         userset := { Namespace := "user", ObjectId := "alice", Relation := "" } }]) ∧
    ExecEnv.txQuery
      ⟨none, none,
        fun _ => .ok ⟨[["document", "firstdoc", "viewer", "user", "alice", ""]], none⟩,
        fun _ => .ok ⟨[], none⟩⟩ (QueryTuples "document" 5).query = .ok ⟨[], none⟩ :=
  ⟨rfl, rfl, rfl, rfl⟩

theorem scanAll_append_error {raws1 : List RawRow} {ts : List RelationTuple}
    (h : scanAll raws1 = .ok ts) (bad : RawRow) (raws2 : List RawRow) {e : String}
    (hbad : scanRow bad = .error e) :
    scanAll (raws1 ++ bad :: raws2) = .error e := by
  induction raws1 generalizing ts with
  | nil => simp [scanAll, hbad]
  | cons raw rest ih =>
    rw [List.cons_append]
    unfold scanAll at h ⊢
    cases hr : scanRow raw with
    | error e1 => rw [hr] at h; exact absurd h (by simp)
    | ok t =>
      rw [hr] at h
      cases hs : scanAll rest with
      | error e1 => rw [hs] at h; exact absurd h (by simp)
      | ok ts1 => rw [ih hs]

/-- C3: every failing `Execute` path — transaction open, request
compilation, query execution, row scan, deferred cursor error — returns
an error of the single kind `wrapErr` around the underlying cause and
no iterator; a scan failure anywhere aborts the whole call even when
every earlier row scanned successfully, so no partial result is ever
returned. -/
theorem c3_failures_single_error_kind (ptq : pgTupleQuery) (env : ExecEnv) :
    (∀ e, (ptq.Execute env).result = .error e → ∃ cause, e = wrapErr cause) ∧
    (∀ e, env.beginxErr = some e → (ptq.Execute env).result = .error (wrapErr e)) ∧
    (∀ e, env.beginxErr = none → env.toSqlErr = some e →
      (ptq.Execute env).result = .error (wrapErr e)) ∧
    (∀ e, env.beginxErr = none → env.toSqlErr = none →
      env.dbQuery ptq.query = .error e →
      (ptq.Execute env).result = .error (wrapErr e)) ∧
    (∀ qr e, env.beginxErr = none → env.toSqlErr = none →
      env.dbQuery ptq.query = .ok qr → scanAll qr.raws = .error e →
      (ptq.Execute env).result = .error (wrapErr e)) ∧
    (∀ (raws1 : List RawRow) (ts : List RelationTuple) (bad : RawRow)
        (raws2 : List RawRow) (e : String),
      scanAll raws1 = .ok ts → scanRow bad = .error e →
      scanAll (raws1 ++ bad :: raws2) = .error e) := by
  refine ⟨?_, ?_, ?_, ?_, ?_, ?_⟩
  · intro e he
    rw [Execute_result_spec] at he
    cases hb : env.beginxErr with
    | some e1 => simp [hb] at he; exact ⟨e1, he.symm⟩
    | none =>
      cases ht : env.toSqlErr with
      | some e1 => simp [hb, ht] at he; exact ⟨e1, he.symm⟩
      | none =>
        cases hq : env.dbQuery ptq.query with
        | error e1 => simp [hb, ht, hq] at he; exact ⟨e1, he.symm⟩
        | ok qr =>
          cases hs : scanAll qr.raws with
          | error e1 => simp [hb, ht, hq, hs] at he; exact ⟨e1, he.symm⟩
          | ok ts =>
            cases hf : qr.finalErr with
            | some e1 => simp [hb, ht, hq, hs, hf] at he; exact ⟨e1, he.symm⟩
            | none => simp [hb, ht, hq, hs, hf] at he
  · intro e hb; simp [Execute_result_spec, hb]
  · intro e hb ht; simp [Execute_result_spec, hb, ht]
  · intro e hb ht hq; simp [Execute_result_spec, hb, ht, hq]
  · intro qr e hb ht hq hs; simp [Execute_result_spec, hb, ht, hq, hs]
  · intro raws1 ts bad raws2 e h1 hbad
    exact scanAll_append_error h1 bad raws2 hbad

theorem c3_failures_single_error_kind_witness :
    ((QueryTuples "document" 5).Execute
      ⟨none, none,
        fun _ => .ok ⟨[["document", "firstdoc", "viewer", "user", "alice", ""], ["short"]], none⟩,
        fun _ => .ok ⟨[], none⟩⟩).result =
      .error (wrapErr "sql: scan destination count does not match column count") :=
  (c3_failures_single_error_kind (QueryTuples "document" 5)
      ⟨none, none,
        fun _ => .ok ⟨[["document", "firstdoc", "viewer", "user", "alice", ""], ["short"]], none⟩,
        fun _ => .ok ⟨[], none⟩⟩).2.2.2.2.1
    ⟨[["document", "firstdoc", "viewer", "user", "alice", ""], ["short"]], none⟩
    "sql: scan destination count does not match column count"
    rfl rfl rfl (by decide)

/-- C4: refining a base specification with `WithRelation` yields a
fresh value carrying exactly one more conjunct; two branches derived
with different relations are distinct values whose compiled filters are
each fully determined by the base and their own argument (so neither
branch, nor any further refinement of a branch, affects the other's
result set). -/
theorem c4_refinement_immutable_branching (s : pgTupleQuery) (r1 r2 : String)
    (h : r1 ≠ r2) :
    (s.WithRelation r1).query.wheres
      = s.query.wheres ++ [.eq .colRelation (.str r1)] ∧
    (s.WithRelation r2).query.wheres
      = s.query.wheres ++ [.eq .colRelation (.str r2)] ∧
    s.WithRelation r1 ≠ s.WithRelation r2 ∧
    (∀ row, (s.WithRelation r1).query.accepts row = true ↔
      (s.query.accepts row = true ∧ row.Relation = r1)) ∧
    (∀ row, (s.WithRelation r2).query.accepts row = true ↔
      (s.query.accepts row = true ∧ row.Relation = r2)) ∧
    (∀ oid row, ((s.WithRelation r1).WithObjectID oid).query.accepts row = true ↔
      ((s.WithRelation r1).query.accepts row = true ∧ row.ObjectID = oid)) := by
  refine ⟨rfl, rfl, ?_, ?_, ?_, ?_⟩
  · intro heq
    exact h (congrArg pgTupleQuery.relation heq)
  · intro row
    simp [pgTupleQuery.WithRelation, SelectBuilder.Where, SelectBuilder.accepts,
      evalPred, colValue, and_comm]
  · intro row
    simp [pgTupleQuery.WithRelation, SelectBuilder.Where, SelectBuilder.accepts,
      evalPred, colValue, and_comm]
  · intro oid row
    simp [pgTupleQuery.WithRelation, pgTupleQuery.WithObjectID, SelectBuilder.Where,
      SelectBuilder.accepts, evalPred, colValue, and_comm, and_assoc]

theorem c4_refinement_immutable_branching_witness :
    (QueryTuples "document" 5).WithRelation "viewer"
      ≠ (QueryTuples "document" 5).WithRelation "editor" :=
  (c4_refinement_immutable_branching (QueryTuples "document" 5) "viewer" "editor"
    (by decide)).2.2.1

theorem nextN_fresh (ts : List RelationTuple) :
    nextN (freshIter ts) ts.length = (ts.map some, freshIter []) := by
  induction ts with
  | nil => rfl
  | cons t rest ih =>
    simp only [freshIter] at ih ⊢
    simp [nextN, pgTupleIterator.Next, ih]

theorem scanAll_ok_nth {raws : List RawRow} {ts : List RelationTuple}
    (h : scanAll raws = .ok ts) :
    ts.length = raws.length ∧
    ∀ i (h1 : i < raws.length) (h2 : i < ts.length),
      scanRow (raws.get ⟨i, h1⟩) = .ok (ts.get ⟨i, h2⟩) := by
  induction raws generalizing ts with
  | nil =>
    obtain rfl : ts = [] := by simpa [scanAll] using h.symm
    exact ⟨rfl, by intro i h1 _; cases h1⟩
  | cons raw rest ih =>
    unfold scanAll at h
    cases hr : scanRow raw with
    | error e => rw [hr] at h; cases h
    | ok t =>
      rw [hr] at h
      cases hs : scanAll rest with
      | error e => rw [hs] at h; cases h
      | ok ts1 =>
        rw [hs] at h
        obtain rfl : ts = t :: ts1 := by simpa using h.symm
        obtain ⟨hlen, hnth⟩ := ih hs
        refine ⟨by simp [hlen], ?_⟩
        intro i h1 h2
        cases i with
        | zero => simpa using hr
        | succ j =>
          simpa using hnth j (by simpa using h1) (by simpa using h2)

/-- C5: the first `n` `Next()` calls on the iterator over a
materialized list of length `n` yield exactly that list, in order, each
tuple once; and the materialization loop preserves the cursor order:
the `i`-th delivered tuple is the scan of the `i`-th raw row the
storage engine produced. -/
theorem c5_order_preservation (ts : List RelationTuple) (raws : List RawRow)
    (h : scanAll raws = .ok ts) :
    (nextN (freshIter ts) ts.length).1 = ts.map some ∧
    ts.length = raws.length ∧
    ∀ i (h1 : i < raws.length) (h2 : i < ts.length),
      scanRow (raws.get ⟨i, h1⟩) = .ok (ts.get ⟨i, h2⟩) := by
  obtain ⟨hlen, hnth⟩ := scanAll_ok_nth h
  exact ⟨by rw [nextN_fresh], hlen, hnth⟩

theorem c5_order_preservation_witness :
    (nextN (freshIter
      [{ objectAndRelation := { Namespace := "document", ObjectId := "firstdoc", Relation := "viewer" },
         userset := { Namespace := "user", ObjectId := "alice", Relation := "" } },
       { objectAndRelation := { Namespace := "document", ObjectId := "firstdoc", Relation := "viewer" },
         userset := { Namespace := "user", ObjectId := "bob", Relation := "" } }]) 2).1 =
      [some { objectAndRelation := { Namespace := "document", ObjectId := "firstdoc", Relation := "viewer" },
              userset := { Namespace := "user", ObjectId := "alice", Relation := "" } },
       some { objectAndRelation := { Namespace := "document", ObjectId := "firstdoc", Relation := "viewer" },
              userset := { Namespace := "user", ObjectId := "bob", Relation := "" } }] :=
  (c5_order_preservation _
    [["document", "firstdoc", "viewer", "user", "alice", ""],
     ["document", "firstdoc", "viewer", "user", "bob", ""]] (by decide)).1

theorem nextN_closed_errslot (k : Nat) :
    nextN { tuples := [], closed := true, err := some errClosedIterator } k =
      (List.replicate k none,
       { tuples := [], closed := true, err := some errClosedIterator }) := by
  induction k with
  | zero => rfl
  | succ n ih => simp [nextN, pgTupleIterator.Next, ih, List.replicate]

/-- C6: on a drained open iterator with an empty error slot, every
further `Next()` yields no value and leaves the state (error slot
included) unchanged; after `Close()`, every `Next()` yields no value
and records the iterator-closed error, observable through `Err()`. -/
theorem c6_exhaustion_then_use_after_close (it : pgTupleIterator)
    (h1 : it.tuples = []) (h2 : it.closed = false) (h3 : it.err = none) :
    (∀ k, nextN it k = (List.replicate k none, it)) ∧
    it.Close = some { it with tuples := [], closed := true } ∧
    (∀ k, 0 < k →
      (nextN { it with tuples := [], closed := true } k).1 = List.replicate k none ∧
      ((nextN { it with tuples := [], closed := true } k).2).Err
        = some errClosedIterator) := by
  obtain ⟨ts, c, e⟩ := it
  simp only at h1 h2 h3
  subst h1; subst h2; subst h3
  refine ⟨?_, ?_, ?_⟩
  · intro k
    induction k with
    | zero => rfl
    | succ n ih => simp [nextN, pgTupleIterator.Next, ih, List.replicate]
  · rfl
  · intro k hk
    cases k with
    | zero => cases hk
    | succ n =>
      have hstep :
          ({ tuples := [], closed := true, err := none } : pgTupleIterator).Next =
            (none, { tuples := [], closed := true, err := some errClosedIterator }) := rfl
      simp [nextN, hstep, nextN_closed_errslot, pgTupleIterator.Err, List.replicate]

theorem c6_exhaustion_then_use_after_close_witness :
    nextN (freshIter []) 3 = (List.replicate 3 none, freshIter []) :=
  (c6_exhaustion_then_use_after_close (freshIter []) rfl rfl rfl).1 3

/-- C7: the first `Close()` on an open iterator succeeds, releases the
buffered tuples and marks the iterator closed; a second `Close()` on
the resulting iterator always dies (the double-close panic), never
silently succeeding. -/
theorem c7_close_once_then_double_close_fatal (it : pgTupleIterator)
    (h : it.closed = false) :
    it.Close = some { it with tuples := [], closed := true } ∧
    ({ it with tuples := [], closed := true } : pgTupleIterator).closed = true ∧
    ({ it with tuples := [], closed := true } : pgTupleIterator).tuples = [] ∧
    ({ it with tuples := [], closed := true } : pgTupleIterator).err = it.err ∧
    ({ it with tuples := [], closed := true } : pgTupleIterator).Close = none := by
  refine ⟨?_, rfl, rfl, rfl, ?_⟩
  · simp [pgTupleIterator.Close, h]
  · simp [pgTupleIterator.Close]

theorem c7_close_once_then_double_close_fatal_witness :
    (freshIter []).Close = some { tuples := [], closed := true, err := none } ∧
    ({ tuples := [], closed := true, err := none } : pgTupleIterator).closed = true ∧
    ({ tuples := [], closed := true, err := none } : pgTupleIterator).tuples = [] ∧
    ({ tuples := [], closed := true, err := none } : pgTupleIterator).err = (freshIter []).err ∧
    ({ tuples := [], closed := true, err := none } : pgTupleIterator).Close = none :=
  c7_close_once_then_double_close_fatal (freshIter []) rfl

/-- C8 counterexample: `WithUserset` with an absent (nil) subject is
not pure data accumulation — the body dereferences the nil pointer and
aborts, returning no new specification. -/
theorem c8_nil_userset_aborts :
    (QueryTuples "document" 5).WithUserset none = none := rfl

/-- C8 (amended): specification construction and every builder
operation with present arguments is total pure data accumulation —
`QueryTuples` always yields the three base conjuncts, `WithObjectID`
and `WithRelation` always return a new specification with exactly one
more conjunct, and `WithUserset` with a present (non-nil) subject
always succeeds, adding the one all-or-nothing three-field subject
conjunct; only a nil subject aborts. -/
theorem c8_builders_total_on_present_arguments (q : pgTupleQuery)
    (ns oid rel : String) (R : Nat) (u : ObjectAndRelation) :
    (QueryTuples ns R).query.wheres =
      [.eq .colNamespace (.str ns), .ltOrEq .colCreatedTxn R,
       .orP (.eq .colDeletedTxn (.nat liveDeletedTxnID)) (.gt .colDeletedTxn R)] ∧
    (q.WithObjectID oid).query.wheres
      = q.query.wheres ++ [.eq .colObjectID (.str oid)] ∧
    (q.WithRelation rel).query.wheres
      = q.query.wheres ++ [.eq .colRelation (.str rel)] ∧
    q.WithUserset (some u) = some { q with
      query := q.query.Where
        (.andP (.eq .colUsersetNamespace (.str u.Namespace))
          (.andP (.eq .colUsersetObjectID (.str u.ObjectId))
            (.eq .colUsersetRelation (.str u.Relation)))) } :=
  ⟨rfl, rfl, rfl, rfl⟩

/-- C9: the leak-check closure registered on every returned iterator
dies iff the abandoned iterator was never closed — an open iterator is
reported loudly with a message identifying the offending query, a
closed one passes silently. -/
theorem c9_finalizer_leak_check (sqlStr argsStr : String) (iter : pgTupleIterator) :
    (iter.closed = false →
      finalizerCheck sqlStr argsStr iter =
        .error ("Tuple iterator garbage collected before Close() was called\n sql: "
          ++ sqlStr ++ "\n args: " ++ argsStr ++ "\n")) ∧
    (iter.closed = true → finalizerCheck sqlStr argsStr iter = .ok ()) := by
  constructor
  · intro h; simp [finalizerCheck, h]
  · intro h; simp [finalizerCheck, h]

theorem c9_finalizer_leak_check_witness :
    finalizerCheck "SELECT" "[]" (freshIter []) =
      .error ("Tuple iterator garbage collected before Close() was called\n sql: "
        ++ "SELECT" ++ "\n args: " ++ "[]" ++ "\n") :=
  (c9_finalizer_leak_check "SELECT" "[]" (freshIter [])).1 rfl

theorem applyOp_err {it it2 : pgTupleIterator} {op : Op}
    (h : applyOp it op = some it2) :
    ((op == .next && it.closed) = false ∧ it2.err = it.err) ∨
    ((op == .next && it.closed) = true ∧ it2.err = some errClosedIterator) := by
  cases op with
  | errq =>
    obtain rfl : it = it2 := by simpa [applyOp] using h
    exact Or.inl ⟨by simp, rfl⟩
  | close =>
    left
    refine ⟨by simp, ?_⟩
    simp only [applyOp, pgTupleIterator.Close] at h
    by_cases hc : it.closed = true
    · rw [if_pos hc] at h; cases h
    · rw [if_neg hc] at h
      obtain rfl : ({ it with tuples := [], closed := true } : pgTupleIterator) = it2 := by
        simpa using h
      rfl
  | next =>
    simp only [applyOp, pgTupleIterator.Next] at h
    by_cases hc : it.closed = true
    · right
      rw [if_pos hc] at h
      obtain rfl : ({ it with err := some errClosedIterator } : pgTupleIterator) = it2 := by
        simpa using h
      exact ⟨by simp [hc], rfl⟩
    · left
      rw [if_neg hc] at h
      refine ⟨by simp [Bool.not_eq_true] at hc; simp [hc], ?_⟩
      cases hts : it.tuples with
      | nil =>
        rw [hts] at h
        obtain rfl : it = it2 := by simpa using h
        rfl
      | cons a l =>
        rw [hts] at h
        obtain rfl : ({ it with tuples := l } : pgTupleIterator) = it2 := by simpa using h
        rfl

theorem runOps_err_persists {ops : List Op} :
    ∀ {it it1 : pgTupleIterator}, runOps it ops = some it1 →
      it.err = some errClosedIterator → it1.err = some errClosedIterator := by
  induction ops with
  | nil =>
    intro it it1 h he
    obtain rfl : it = it1 := by simpa [runOps] using h
    exact he
  | cons op rest ih =>
    intro it it1 h he
    unfold runOps at h
    cases ha : applyOp it op with
    | none => rw [ha] at h; cases h
    | some it2 =>
      rw [ha] at h
      rcases applyOp_err ha with ⟨_, he2⟩ | ⟨_, he2⟩
      · exact ih h (he2.trans he)
      · exact ih h he2

theorem runOps_err_iff {ops : List Op} :
    ∀ {it it1 : pgTupleIterator}, runOps it ops = some it1 →
      (it1.err = it.err ∧ nextWhileClosed it ops = false) ∨
      (it1.err = some errClosedIterator ∧ nextWhileClosed it ops = true) := by
  induction ops with
  | nil =>
    intro it it1 h
    obtain rfl : it = it1 := by simpa [runOps] using h
    exact Or.inl ⟨rfl, rfl⟩
  | cons op rest ih =>
    intro it it1 h
    unfold runOps at h
    cases ha : applyOp it op with
    | none => rw [ha] at h; cases h
    | some it2 =>
      rw [ha] at h
      have hnwc : nextWhileClosed it (op :: rest) =
          ((op == .next && it.closed) || nextWhileClosed it2 rest) := by
        simp only [nextWhileClosed, ha]
      rcases applyOp_err ha with ⟨hh, he2⟩ | ⟨hh, he2⟩
      · rcases ih h with ⟨he, hw⟩ | ⟨he, hw⟩
        · exact Or.inl ⟨he.trans he2, by rw [hnwc, hh, hw]; rfl⟩
        · exact Or.inr ⟨he, by rw [hnwc, hh, hw]; rfl⟩
      · rcases ih h with ⟨he, hw⟩ | ⟨he, hw⟩
        · exact Or.inr ⟨he.trans he2, by rw [hnwc, hh]; rfl⟩
        · exact Or.inr ⟨he, by rw [hnwc, hh]; rfl⟩

/-- C10: starting from the iterator `Execute` returns, after any
sequence of surviving operations the error slot is either still empty
or holds exactly the iterator-closed error; it is non-empty precisely
when some `Next()` ran while the iterator was closed; and once set it
is never cleared by any further surviving operations. -/
theorem c10_error_slot_invariant (ts : List RelationTuple) (ops : List Op)
    (it1 : pgTupleIterator) (h : runOps (freshIter ts) ops = some it1) :
    (it1.err = none ∨ it1.err = some errClosedIterator) ∧
    (it1.err = some errClosedIterator ↔
      nextWhileClosed (freshIter ts) ops = true) ∧
    (it1.err = some errClosedIterator →
      ∀ ops2 it2, runOps it1 ops2 = some it2 →
        it2.err = some errClosedIterator) := by
  rcases runOps_err_iff h with ⟨he, hw⟩ | ⟨he, hw⟩
  · have hnone : it1.err = none := he
    refine ⟨Or.inl hnone, ?_, ?_⟩
    · constructor
      · intro hc; rw [hnone] at hc; cases hc
      · intro hc; rw [hw] at hc; cases hc
    · intro hc; rw [hnone] at hc; cases hc
  · refine ⟨Or.inr he, ⟨fun _ => hw, fun _ => he⟩, ?_⟩
    intro _ ops2 it2 h2
    exact runOps_err_persists h2 he

theorem c10_error_slot_invariant_witness :
    ((pgTupleIterator.mk [] true (some errClosedIterator)).err = none ∨
      (pgTupleIterator.mk [] true (some errClosedIterator)).err
        = some errClosedIterator) ∧
    ((pgTupleIterator.mk [] true (some errClosedIterator)).err
        = some errClosedIterator ↔
      nextWhileClosed (freshIter []) [Op.close, Op.next] = true) ∧
    ((pgTupleIterator.mk [] true (some errClosedIterator)).err
        = some errClosedIterator →
      ∀ ops2 it2,
        runOps (pgTupleIterator.mk [] true (some errClosedIterator)) ops2 = some it2 →
        it2.err = some errClosedIterator) :=
  c10_error_slot_invariant [] [Op.close, Op.next]
    (pgTupleIterator.mk [] true (some errClosedIterator)) (by decide)

end PGQuery
